import Mathlib

/-!
Shallow embedding of the liquidity-baking tracker client
(src/scripts/track-lb.ts) and proofs of its specified properties.

Modelling conventions:
- JavaScript numbers that hold block levels and EMA counters are integers in
  the source data; they are modelled as Nat.  The derived percentages are
  computed without rounding (the spec fixes formatting as a presentation
  concern), modelled over the rationals.
- Optional / possibly-null JS fields are modelled as Option.
- JS string truthiness (absent, null or empty string is falsy) is modelled by
  Option String together with an emptiness test.
- The watermark lastLoggedLevel starts at the sentinel -1, so it lives in Int.
- File contents are modelled at the value level: the newline-delimited log is
  a list of its entries, the legacy log an optional list of parsed entries.
- Wall-clock timestamps are opaque strings threaded in as a parameter.
- An I/O failure of the append call is modelled by a Bool flag on the step.
-/

namespace TrackLB

/-- ASCII 0x1E frame delimiter, String.fromCharCode(30) in the source. -/
def TERMINATOR : String := String.singleton (Char.ofNat 30)

/-- Deactivation threshold constant from the source. -/
def THRESHOLD : Nat := 1000000000

/-- MAX_EMA constant from the source. -/
def MAX_EMA : Nat := 2000000000

/-- History capacity constant from the source. -/
def HISTORY_LIMIT : Nat := 10

/-- EXPORT_OFF_VOTES configuration flag from the source. -/
def EXPORT_OFF_VOTES : Bool := true

/-- Proposer record of a raw block: optional alias, required address.
The source field is named alias, a reserved word here. -/
structure Proposer where
  aliasName : Option String
  address : String
deriving DecidableEq, Repr

/-- Raw block payload as consumed by the message handler. -/
structure RawBlock where
  level : Nat
  lbToggleEma : Option Nat
  lbToggleVote : Option String
  lbToggle : Option Bool
  proposer : Proposer
deriving DecidableEq, Repr

/-- Derived snapshot, the blockData object built in socket.onmessage. -/
structure BlockSnapshot where
  level : Nat
  ema : Nat
  pct : ℚ
  progress : ℚ
  vote : String
  baker : String
deriving DecidableEq, Repr

/-- Persisted log record shape. -/
structure LogEntry where
  level : Nat
  vote : String
  baker : String
  ema : Nat
  timestamp : String
deriving DecidableEq, Repr

/-- ASCII uppercasing, the toUpperCase call on the vote string: each
character is uppercased. -/
def jsToUpper (s : String) : String := String.mk (s.data.map Char.toUpper)

/-- Fallback of the vote if-chain when lbToggleVote is falsy: strict
comparisons of lbToggle against true and false, else the initial "PASS". -/
def voteFallback (lbToggle : Option Bool) : String :=
  match lbToggle with
  | some true => "ON"
  | some false => "OFF"
  | none => "PASS"

/-- Vote derivation from socket.onmessage: a truthy lbToggleVote string wins
verbatim, else the lbToggle fallback; the result is uppercased. -/
def deriveVote (lbToggleVote : Option String) (lbToggle : Option Bool) : String :=
  let vote :=
    match lbToggleVote with
    | some s => if s = "" then voteFallback lbToggle else s
    | none => voteFallback lbToggle
  jsToUpper vote

/-- Baker display name: alias when truthy, else address. -/
def bakerName (p : Proposer) : String :=
  match p.aliasName with
  | some a => if a = "" then p.address else a
  | none => p.address

/-- currentPct from the source: (ema / MAX_EMA) * 100, exact arithmetic. -/
def currentPct (ema : Nat) : ℚ := (ema : ℚ) / (MAX_EMA : ℚ) * 100

/-- deactivationProgress from the source: (ema / THRESHOLD) * 100. -/
def deactivationProgress (ema : Nat) : ℚ := (ema : ℚ) / (THRESHOLD : ℚ) * 100

/-- The snapshot built for a block whose lbToggleEma is present. -/
def mkSnapshot (b : RawBlock) (ema : Nat) : BlockSnapshot :=
  { level := b.level
    ema := ema
    pct := currentPct ema
    progress := deactivationProgress ema
    vote := deriveVote b.lbToggleVote b.lbToggle
    baker := bakerName b.proposer }

/-- shouldTrack disjunction from the source, deciding history membership. -/
def shouldTrack (vote mode : String) : Bool :=
  mode == "ALL" ||
    (mode == "ON_OFF" && (vote == "ON" || vote == "OFF")) ||
    (mode == "OFF_ONLY" && vote == "OFF")

/-- History insertion: push, then shift the oldest when past capacity. -/
def pushHistory (h : List BlockSnapshot) (b : BlockSnapshot) : List BlockSnapshot :=
  let h2 := h ++ [b]
  if h2.length > HISTORY_LIMIT then h2.tail else h2

/-- The mutable state of the process: latestBlock, blockHistory, the log file
contents (as the list of its entries) and the watermark lastLoggedLevel. -/
structure SessionState where
  latestBlock : Option BlockSnapshot
  blockHistory : List BlockSnapshot
  log : List LogEntry
  lastLoggedLevel : Int
deriving DecidableEq, Repr

/-- State at first-ever start: no snapshot, empty history, empty log file,
watermark at the sentinel -1. -/
def initialState : SessionState :=
  { latestBlock := none, blockHistory := [], log := [], lastLoggedLevel := -1 }

/-- Startup watermark initialization: the level of the trailing log entry,
or the sentinel -1 when the log is empty or its trailing line fails to
parse (a missing or empty file leaves lastLoggedLevel at its default). -/
def initWatermark (log : List LogEntry) : Int :=
  match log.getLast? with
  | some e => (e.level : Int)
  | none => -1

/-- Process restart: in-memory state is reset, the log file persists and the
watermark is rebuilt from its tail. -/
def restartState (log : List LogEntry) : SessionState :=
  { latestBlock := none, blockHistory := [], log := log,
    lastLoggedLevel := initWatermark log }

/-- The guarded append of one OFF-vote entry: appendFileSync plus the
watermark advance, inside the try/catch.  ioFail models the append call
raising an I/O error, which the catch suppresses before the watermark
advance runs. -/
def logStep (ioFail : Bool) (st : SessionState) (e : LogEntry) : SessionState :=
  if (e.level : Int) > st.lastLoggedLevel then
    if ioFail then st
    else { st with log := st.log ++ [e], lastLoggedLevel := (e.level : Int) }
  else st

/-- Handling of one block record inside socket.onmessage: the lbToggleEma
guard, vote derivation, snapshot construction, unconditional latestBlock
update, filtered history push, and the guarded OFF-vote log append.
now is the wall-clock timestamp of processing. -/
def handleBlock (mode : String) (ioFail : Bool) (now : String)
    (st : SessionState) (block : RawBlock) : SessionState :=
  match block.lbToggleEma with
  | none => st
  | some ema =>
    let blockData := mkSnapshot block ema
    let st1 := { st with latestBlock := some blockData }
    let st2 :=
      if shouldTrack blockData.vote mode then
        { st1 with blockHistory := pushHistory st1.blockHistory blockData }
      else st1
    if EXPORT_OFF_VOTES && blockData.vote == "OFF" then
      logStep ioFail st2
        { level := block.level, vote := blockData.vote,
          baker := blockData.baker, ema := ema, timestamp := now }
    else st2

/-- Envelope carried in arguments[0] of a blocks invocation; data is absent
when the field is missing or not an array. -/
structure BlockEnvelope where
  data : Option (List RawBlock)
deriving DecidableEq, Repr

/-- Parse outcome of one delimiter-separated frame of an inbound chunk:
the empty fragment skipped by the falsy check, a JSON.parse failure, the
empty-object handshake acknowledgment, a type 6 ping, a type 1 blocks
invocation, or any other well-formed message. -/
inductive Frame
  | empty
  | malformed
  | handshakeAck
  | ping
  | blockUpdate (arguments : List BlockEnvelope)
  | other
deriving DecidableEq, Repr

/-- The JSON serialization of the subscription invocation sent on the
handshake acknowledgment, in insertion key order. -/
def subscribeJson : String :=
  "\x7b\"type\":1,\"target\":\"SubscribeToBlocks\",\"arguments\":[]\x7d"

/-- The wire form of the subscription: the JSON plus one trailing delimiter. -/
def subscribeWire : String := subscribeJson ++ TERMINATOR

/-- Dispatch of one frame: returns the new state and the messages sent on the
socket while handling it.  A malformed frame is swallowed by the per-frame
try/catch: no state change, nothing sent, the loop continues. -/
def handleFrame (mode : String) (ioFail : Bool) (now : String)
    (st : SessionState) (f : Frame) : SessionState × List String :=
  match f with
  | .empty => (st, [])
  | .malformed => (st, [])
  | .handshakeAck => (st, [subscribeWire])
  | .ping => (st, [])
  | .blockUpdate arguments =>
    match arguments.head? with
    | some env =>
      match env.data with
      | some (block :: _) => (handleBlock mode ioFail now st block, [])
      | _ => (st, [])
    | none => (st, [])
  | .other => (st, [])

/-- The per-chunk loop of socket.onmessage: frames are handled in order,
threading the state and collecting the sent messages. -/
def handleChunk (mode : String) (ioFail : Bool) (now : String) :
    SessionState → List Frame → SessionState × List String
  | st, [] => (st, [])
  | st, f :: fs =>
    let r := handleFrame mode ioFail now st f
    let rest := handleChunk mode ioFail now r.1 fs
    (rest.1, r.2 ++ rest.2)

/-- JSON.stringify of one log entry, in insertion key order.  The string
fields of the entries at hand need no escaping. -/
def serializeEntry (e : LogEntry) : String :=
  "\x7b\"level\":" ++ toString e.level ++ ",\"vote\":\"" ++ e.vote ++
    "\",\"baker\":\"" ++ e.baker ++ "\",\"ema\":" ++ toString e.ema ++
    ",\"timestamp\":\"" ++ e.timestamp ++ "\"\x7d"

/-- The two log files on disk: the legacy single-JSON-array file (modelled by
its parsed entries when present) and the newline-delimited file (modelled by
its raw text content when present). -/
structure LogFiles where
  legacy : Option (List LogEntry)
  jsonl : Option String
deriving DecidableEq, Repr

/-- Startup migration: when the legacy file exists and the newline-delimited
file does not, re-emit each array element as one JSON line joined by
newlines with a trailing newline, and write the newline-delimited file.
The legacy file is never written.  A well-formed legacy array file has
nonempty trimmed content, so the content guard of the source passes. -/
def migrateLegacy (files : LogFiles) : LogFiles :=
  match files.legacy, files.jsonl with
  | some entries, none =>
    { files with
      jsonl := some (String.intercalate "\n" (entries.map serializeEntry) ++ "\n") }
  | _, _ => files

/-- An OFF-voting raw block at a given level (lbToggle strictly false, no
override vote string), as used in the log-idempotence scenario. -/
def offBlock (lvl : Nat) : RawBlock :=
  { level := lvl, lbToggleEma := some 0, lbToggleVote := none,
    lbToggle := some false, proposer := { aliasName := none, address := "tz1X" } }

/-- Run of the block handler over a list of OFF-vote levels with display mode
ALL, no I/O failures and a fixed processing timestamp. -/
def runBlocks (st : SessionState) (ls : List Nat) : SessionState :=
  ls.foldl (fun s l => handleBlock "ALL" false "t0" s (offBlock l)) st

/-- The OFF-vote level sequence of the log-idempotence scenario. -/
def scenarioLevels : List Nat := [100, 101, 101, 102]

/-- The scenario split across two process runs at position k: the first k
levels in the first run, a restart that reloads the watermark from the log
tail, then the remaining levels in the second run. -/
def twoRunScenario (k : Fin 5) : SessionState :=
  let st1 := runBlocks initialState (scenarioLevels.take k.val)
  runBlocks (restartState st1.log) (scenarioLevels.drop k.val)

/-- Watermark invariant: lastLoggedLevel is the level of the most recently
appended log entry, or the sentinel -1 when nothing was ever appended. -/
def wmInv (st : SessionState) : Prop :=
  st.lastLoggedLevel = initWatermark st.log

/-- A whole run of the message handler over block events, each event carrying
its append-I/O outcome and its wall-clock timestamp. -/
def processEvents (mode : String) (events : List (Bool × String × RawBlock)) :
    SessionState :=
  events.foldl (fun st ev => handleBlock mode ev.1 ev.2.1 st ev.2.2) initialState

/-- A raw block whose lbToggleEma field is absent, hitting the reduction
guard. -/
def noEmaBlock : RawBlock :=
  { level := 7, lbToggleEma := none, lbToggleVote := none, lbToggle := none,
    proposer := { aliasName := none, address := "tz1X" } }

/-- A concrete legacy log entry at level 5. -/
def legacyEntry5 : LogEntry :=
  { level := 5, vote := "OFF", baker := "tz1X", ema := 1200000000, timestamp := "t5" }

/-- Disk state with only the legacy array file present, holding one entry. -/
def legacyFiles5 : LogFiles := { legacy := some [legacyEntry5], jsonl := none }

/-! Helper lemmas shared by the claim theorems. -/

theorem logStep_latestBlock (io : Bool) (st : SessionState) (e : LogEntry) :
    (logStep io st e).latestBlock = st.latestBlock := by
  unfold logStep
  split
  · split <;> rfl
  · rfl

theorem logStep_blockHistory (io : Bool) (st : SessionState) (e : LogEntry) :
    (logStep io st e).blockHistory = st.blockHistory := by
  unfold logStep
  split
  · split <;> rfl
  · rfl

theorem pushHistory_foldl (bs : List BlockSnapshot) :
    ∀ h : List BlockSnapshot, h.length ≤ HISTORY_LIMIT →
      bs.foldl pushHistory h =
        (h ++ bs).drop (h.length + bs.length - HISTORY_LIMIT) := by
  induction bs with
  | nil =>
    intro h hh
    simp only [List.foldl_nil, List.append_nil, List.length_nil, Nat.add_zero]
    have hz : h.length - HISTORY_LIMIT = 0 := by omega
    simp [hz]
  | cons b bs ih =>
    intro h hh
    rw [List.foldl_cons]
    rcases Nat.lt_or_ge h.length HISTORY_LIMIT with hlt | hge
    · have hpush : pushHistory h b = h ++ [b] := by
        simp only [pushHistory]
        rw [if_neg]
        simp only [List.length_append, List.length_cons, List.length_nil]
        omega
      have hlen : (h ++ [b]).length ≤ HISTORY_LIMIT := by
        simp only [List.length_append, List.length_cons, List.length_nil]
        omega
      rw [hpush, ih (h ++ [b]) hlen]
      have harr : (h ++ [b]).length + bs.length - HISTORY_LIMIT =
          h.length + (b :: bs).length - HISTORY_LIMIT := by
        simp only [List.length_append, List.length_cons, List.length_nil]
        omega
      rw [harr, List.append_assoc]
      rfl
    · have heq : h.length = HISTORY_LIMIT := Nat.le_antisymm hh hge
      cases h with
      | nil => simp [HISTORY_LIMIT] at heq
      | cons x h2 =>
        have hpush : pushHistory (x :: h2) b = h2 ++ [b] := by
          simp only [pushHistory]
          rw [if_pos]
          · rfl
          · simp only [List.cons_append, List.length_cons, List.length_append,
              List.length_nil]
            simp only [List.length_cons] at heq
            omega
        have hlen : (h2 ++ [b]).length ≤ HISTORY_LIMIT := by
          simp only [List.length_append, List.length_cons, List.length_nil]
          simp only [List.length_cons] at heq
          omega
        rw [hpush, ih (h2 ++ [b]) hlen]
        have harr : (h2 ++ [b]).length + bs.length - HISTORY_LIMIT = bs.length := by
          simp only [List.length_append, List.length_cons, List.length_nil]
          simp only [List.length_cons] at heq
          omega
        have harr2 : (x :: h2).length + (b :: bs).length - HISTORY_LIMIT =
            bs.length + 1 := by
          simp only [List.length_cons]
          simp only [List.length_cons] at heq
          omega
        rw [harr, harr2, List.append_assoc]
        show List.drop bs.length (h2 ++ ([b] ++ bs)) =
          List.drop (bs.length + 1) (x :: (h2 ++ ([b] ++ bs)))
        rw [List.drop_succ_cons]

theorem wmInv_logStep (io : Bool) (st : SessionState) (e : LogEntry)
    (h : wmInv st) : wmInv (logStep io st e) := by
  unfold logStep
  split
  · split
    · exact h
    · simp [wmInv, initWatermark, List.getLast?_concat]
  · exact h

theorem wmInv_handleBlock (mode : String) (io : Bool) (now : String)
    (st : SessionState) (b : RawBlock) (h : wmInv st) :
    wmInv (handleBlock mode io now st b) := by
  unfold handleBlock
  cases hb : b.lbToggleEma with
  | none => exact h
  | some ema =>
    simp only
    split
    · exact wmInv_logStep _ _ _ (by split <;> exact h)
    · split <;> exact h

theorem wmInv_foldl (mode : String) (events : List (Bool × String × RawBlock)) :
    ∀ st, wmInv st →
      wmInv (events.foldl (fun st ev => handleBlock mode ev.1 ev.2.1 st ev.2.2) st) := by
  induction events with
  | nil => intro st h; exact h
  | cons e es ih =>
    intro st h
    exact ih _ (wmInv_handleBlock _ _ _ _ _ h)

/-! The claim theorems. -/

/-- C1: Durable Vote Log deduplication.  For the OFF-vote level sequence
[100, 101, 101, 102] processed across two runs split at any position, with
the watermark re-initialized from the log tail between the runs, the log
ends with exactly three entries, one per distinct level, in ascending
order; an OFF-vote snapshot is appended exactly when its level strictly
exceeds the current watermark, and the sentinel -1 makes the first-ever
append unconditional. -/
theorem log_dedup_across_restarts :
    (∀ k : Fin 5, ((twoRunScenario k).log.map LogEntry.level) = [100, 101, 102]) ∧
    (∀ (ioFail : Bool) (st : SessionState) (e : LogEntry),
      (e.level : Int) ≤ st.lastLoggedLevel → logStep ioFail st e = st) ∧
    (∀ (st : SessionState) (e : LogEntry),
      (e.level : Int) > st.lastLoggedLevel →
        logStep false st e =
          { st with log := st.log ++ [e], lastLoggedLevel := (e.level : Int) }) ∧
    (∀ (st : SessionState) (e : LogEntry),
      st.lastLoggedLevel = -1 → (logStep false st e).log = st.log ++ [e]) := by
  refine ⟨by decide, ?_, ?_, ?_⟩
  · intro io st e h
    simp [logStep, not_lt.mpr h]
  · intro st e h
    simp [logStep, h]
  · intro st e h
    have hgt : (e.level : Int) > st.lastLoggedLevel := by
      rw [h]; omega
    simp [logStep, hgt]

/-- Witness for C1: the first-ever append from the sentinel state. -/
theorem log_dedup_across_restarts_witness :
    logStep false initialState
        { level := 100, vote := "OFF", baker := "tz1X", ema := 0, timestamp := "t0" } =
      { initialState with
        log := initialState.log ++
          [{ level := 100, vote := "OFF", baker := "tz1X", ema := 0, timestamp := "t0" }],
        lastLoggedLevel := ((100 : Nat) : Int) } :=
  log_dedup_across_restarts.2.2.1 initialState _ (by decide)

/-- C2: Vote derivation is total with codomain ON, OFF, PASS over tri-state
inputs: a truthy lbToggleVote string takes precedence and is used verbatim,
case-normalized to upper; otherwise lbToggle strictly true gives ON,
strictly false gives OFF, and anything else gives PASS.  When the truthy
vote string uppercases into the tri-state set (as the tri-state input field
does), the result is always one of the three values. -/
theorem vote_derivation_total (tv : Option String) (tg : Option Bool) :
    (∀ s, tv = some s → s ≠ "" → deriveVote tv tg = jsToUpper s) ∧
    ((tv = none ∨ tv = some "") →
      deriveVote tv tg = (match tg with
        | some true => "ON"
        | some false => "OFF"
        | none => "PASS")) ∧
    ((∀ s, tv = some s → s ≠ "" → jsToUpper s ∈ ["ON", "OFF", "PASS"]) →
      deriveVote tv tg ∈ ["ON", "OFF", "PASS"]) := by
  refine ⟨?_, ?_, ?_⟩
  · rintro s rfl hs
    simp [deriveVote, hs]
  · rintro (rfl | rfl) <;>
      (rcases tg with _ | b; · decide
       · cases b <;> decide)
  · intro hcod
    cases tv with
    | none =>
      rcases tg with _ | b
      · decide
      · cases b <;> decide
    | some s =>
      by_cases hs : s = ""
      · subst hs
        rcases tg with _ | b
        · decide
        · cases b <;> decide
      · have hmem := hcod s rfl hs
        simpa [deriveVote, hs] using hmem

/-- Witness for C2: a truthy mixed-case vote string is used verbatim,
uppercased. -/
theorem vote_derivation_total_witness :
    deriveVote (some "Off") none = jsToUpper "Off" :=
  (vote_derivation_total (some "Off") none).1 "Off" rfl (by decide)

/-- C3: On every snapshot produced by the reducer, latestBlock is replaced
unconditionally regardless of mode, the snapshot joins the history exactly
when shouldTrack holds, and shouldTrack maps ALL to true, ON_OFF to vote ON
or OFF, OFF_ONLY to vote OFF. -/
theorem snapshot_current_and_history_filter (mode : String) (ioFail : Bool)
    (now : String) (st : SessionState) (b : RawBlock) (ema : Nat)
    (h : b.lbToggleEma = some ema) :
    (handleBlock mode ioFail now st b).latestBlock = some (mkSnapshot b ema) ∧
    (handleBlock mode ioFail now st b).blockHistory =
      (if shouldTrack (mkSnapshot b ema).vote mode then
        pushHistory st.blockHistory (mkSnapshot b ema)
      else st.blockHistory) ∧
    (∀ v, shouldTrack v "ALL" = true) ∧
    (∀ v, shouldTrack v "ON_OFF" = (v == "ON" || v == "OFF")) ∧
    (∀ v, shouldTrack v "OFF_ONLY" = (v == "OFF")) := by
  refine ⟨?_, ?_, ?_, ?_, ?_⟩
  · simp only [handleBlock, h]
    split_ifs <;> first
      | rfl
      | (rw [logStep_latestBlock])
  · simp only [handleBlock, h]
    split_ifs <;> first
      | rfl
      | (rw [logStep_blockHistory])
  · intro v; simp [shouldTrack]
  · intro v; simp [shouldTrack]
  · intro v; simp [shouldTrack]

/-- Witness for C3: an OFF-vote block updates latestBlock even under the
OFF_ONLY filter. -/
theorem snapshot_current_and_history_filter_witness :
    (handleBlock "OFF_ONLY" false "t0" initialState (offBlock 100)).latestBlock =
      some (mkSnapshot (offBlock 100) 0) :=
  (snapshot_current_and_history_filter "OFF_ONLY" false "t0" initialState
    (offBlock 100) 0 rfl).1

/-- C4: The history buffer never exceeds capacity 10, and after inserting any
sequence of tracked snapshots it holds exactly the last 10 (all of them when
fewer) in arrival order, the oldest evicted on each insertion past
capacity. -/
theorem history_buffer_bounded (bs : List BlockSnapshot) :
    (bs.foldl pushHistory []).length ≤ HISTORY_LIMIT ∧
    bs.foldl pushHistory [] = bs.drop (bs.length - HISTORY_LIMIT) := by
  have h := pushHistory_foldl bs [] (by simp [HISTORY_LIMIT])
  simp only [List.nil_append, List.length_nil, Nat.zero_add] at h
  refine ⟨?_, h⟩
  rw [h]
  simp only [List.length_drop]
  omega

/-- C5: A block-update whose block lacks lbToggleEma produces no snapshot and
leaves the whole state unchanged: no history change, no log write, no
watermark advance, previous latestBlock retained. -/
theorem missing_ema_no_effect (mode : String) (ioFail : Bool) (now : String)
    (st : SessionState) (b : RawBlock) (h : b.lbToggleEma = none) :
    handleBlock mode ioFail now st b = st := by
  simp [handleBlock, h]

/-- Witness for C5 at a concrete EMA-less block. -/
theorem missing_ema_no_effect_witness :
    handleBlock "ALL" false "t0" initialState noEmaBlock = initialState :=
  missing_ema_no_effect "ALL" false "t0" initialState noEmaBlock rfl

/-- C6: When the legacy array log exists and the newline-delimited log does
not, startup writes the newline-delimited file with one JSON line per legacy
element (for a one-element array, exactly one line equal to that object
serialized) and leaves the legacy file unchanged; when the newline-delimited
file already exists, migration is skipped entirely. -/
theorem legacy_migration_startup (files : LogFiles) (entries : List LogEntry)
    (e : LogEntry) :
    (files.legacy = some entries → files.jsonl = none →
      (migrateLegacy files).jsonl =
        some (String.intercalate "\n" (entries.map serializeEntry) ++ "\n") ∧
      (migrateLegacy files).legacy = some entries) ∧
    (∀ s, files.jsonl = some s → migrateLegacy files = files) ∧
    (migrateLegacy { legacy := some [e], jsonl := none }).jsonl =
      some (serializeEntry e ++ "\n") := by
  refine ⟨?_, ?_, ?_⟩
  · intro h1 h2
    simp [migrateLegacy, h1, h2]
  · intro s hs
    obtain ⟨lg, js⟩ := files
    simp only at hs
    subst hs
    cases lg <;> rfl
  · simp [migrateLegacy, String.intercalate, String.intercalate.go]

/-- Witness for C6 at the one-element legacy array of level 5. -/
theorem legacy_migration_startup_witness :
    (migrateLegacy legacyFiles5).jsonl =
      some (String.intercalate "\n" ([legacyEntry5].map serializeEntry) ++ "\n") ∧
    (migrateLegacy legacyFiles5).legacy = some [legacyEntry5] :=
  (legacy_migration_startup legacyFiles5 [legacyEntry5] legacyEntry5).1 rfl rfl

/-- C7: For every EMA value, the derived metrics satisfy
deactivationProgress e = 2 * currentPct e exactly, currentPct being the
percentage of MAX_EMA named pctOfMax in the data model. -/
theorem progress_is_twice_pct (ema : Nat) :
    deactivationProgress ema = 2 * currentPct ema := by
  simp only [deactivationProgress, currentPct, THRESHOLD, MAX_EMA]
  ring

/-- C8: A malformed frame is swallowed: it changes no state, sends nothing,
and removing it from a chunk leaves the processing of all other frames of
that chunk, and hence of later chunks, unchanged. -/
theorem malformed_frame_isolated (mode : String) (ioFail : Bool) (now : String)
    (st : SessionState) (a b : List Frame) :
    handleFrame mode ioFail now st Frame.malformed = (st, []) ∧
    handleChunk mode ioFail now st (a ++ Frame.malformed :: b) =
      handleChunk mode ioFail now st (a ++ b) := by
  refine ⟨rfl, ?_⟩
  induction a generalizing st with
  | nil => simp [handleChunk, handleFrame]
  | cons f fs ih =>
    simp only [List.cons_append, handleChunk, List.append_eq]
    rw [ih]

/-- C9: On a frame parsing to the empty JSON object, the client sends exactly
the subscription invocation with type 1, target SubscribeToBlocks and empty
arguments, framed with one trailing 0x1E delimiter, and changes no state. -/
theorem handshake_ack_subscribes (mode : String) (ioFail : Bool) (now : String)
    (st : SessionState) :
    handleFrame mode ioFail now st Frame.handshakeAck = (st, [subscribeWire]) ∧
    subscribeWire = subscribeJson ++ TERMINATOR ∧
    subscribeJson.data.count (Char.ofNat 30) = 0 ∧
    TERMINATOR = String.singleton (Char.ofNat 30) :=
  ⟨rfl, rfl, by decide, rfl⟩

/-- C10: An I/O failure of the append leaves the state, watermark included,
unchanged (the error is swallowed), and after every run of processed
messages the watermark equals the level of the most recently appended log
entry, or the sentinel -1 when none was ever appended. -/
theorem append_failure_preserves_watermark :
    (∀ (st : SessionState) (e : LogEntry), logStep true st e = st) ∧
    (∀ (mode : String) (events : List (Bool × String × RawBlock)),
      wmInv (processEvents mode events)) := by
  constructor
  · intro st e
    unfold logStep
    split <;> rfl
  · intro mode events
    exact wmInv_foldl mode events initialState rfl

end TrackLB
